import Mathlib

/-!
Verification of the exercise-evaluation and progress engine of
`learn_kids.py` (interactive learning platform).

Python dictionaries are modelled as association lists (`List (κ × ν)`) with
insertion-order semantics: `dictGet` is `d.get(k, default)`, `dictSet` is
`d[k] = v` (replaces the value of an existing key in place, otherwise
appends).  Machine integers do not overflow in Python, so scores are `Int`
and counters are `Nat`.
-/

namespace KidsLearn

/-- Python `d.get(k, default)` on an association list. -/
def dictGet {κ ν : Type} [DecidableEq κ] (d : List (κ × ν)) (k : κ) (dflt : ν) : ν :=
  match d with
  | [] => dflt
  | (k', v) :: rest => if k' = k then v else dictGet rest k dflt

/-- Python `d[k] = v` on an association list: replace in place, else append. -/
def dictSet {κ ν : Type} [DecidableEq κ] (d : List (κ × ν)) (k : κ) (v : ν) : List (κ × ν) :=
  match d with
  | [] => [(k, v)]
  | (k', v') :: rest => if k' = k then (k, v) :: rest else (k', v') :: dictSet rest k v

/-- Python `sum(d.values())` for an integer-valued dict. -/
def sumValues (d : List (String × Int)) : Int :=
  (d.map Prod.snd).sum

/-- The five lesson kinds dispatched on by `check_answer`. -/
inductive LessonType
  | explanation
  | fill_blank
  | multiple_choice
  | code_challenge
  | flashcard
deriving DecidableEq, Repr

/-- In-memory lesson record (the fields the engine reads; bilingual text
payloads are modelled as the already-selected display string, i.e.
`_get_display_text` is folded into the field; `hint` already carries the
default `没有提示。` used by `lesson.get('hint', ...)`). -/
structure Lesson where
  type : LessonType
  points : Int
  answer : String
  options : List String
  answer_index : Nat
  expected_output : String
  hint : String
  concept : String
  definition : String
deriving DecidableEq, Repr

/-- Structured feedback shown in `feedback_label` by the answer handlers. -/
inductive Feedback
  | correctNew (points : Int)
  | alreadyPassed
  | correctPlain
  | lockout (answerText : String)
  | retryCode (cppError : String) (remaining : Nat)
  | retryHint (hint : String) (remaining : Nat)
deriving DecidableEq, Repr

/-- A lesson identity: `(current_topic_key, current_lesson_index)`. -/
abbrev LessonID := String × Nat

/-- The mutable progress-tracking fields of `InteractiveLearningApp`. -/
structure ProgressState where
  scores : List (String × Int)
  total_score : Int
  awarded : List (LessonID × Bool)
  failed_attempts : List (LessonID × Nat)
  progress_changed : Bool
deriving Repr

/-- Embedding of `InteractiveLearningApp.MAX_FAILED_ATTEMPTS`. -/
def MAX_FAILED_ATTEMPTS : Nat := 5

/-- Embedding of `InteractiveLearningApp._get_correct_answer_display_text` (lines 905-915).
Well-formed multiple-choice lessons have `answer_index` in range; as in the
source, the option text at that index is produced. -/
def get_correct_answer_display_text (l : Lesson) : String :=
  match l.type with
  | .fill_blank => "“" ++ l.answer ++ "”"
  | .multiple_choice => "“" ++ ((l.options.get? l.answer_index).getD "") ++ "”"
  | .code_challenge => "\n预期输出是:\n---\n" ++ l.expected_output.trim ++ "\n---"
  | _ => "N/A"

/-- Embedding of `InteractiveLearningApp._handle_correct_answer` (lines 918-941).  The
trailing `self.failed_attempts[lesson_id] = 0` of the source runs after the
three-way branch; it is distributed into each branch here. -/
def handle_correct_answer (lesson : Lesson) (lid : LessonID) (st : ProgressState) :
    ProgressState × Feedback :=
  if dictGet st.awarded lid false = false ∧ 0 < lesson.points then
    let newScores := dictSet st.scores lid.1 (dictGet st.scores lid.1 0 + lesson.points)
    ({ st with
        scores := newScores
        total_score := sumValues newScores
        awarded := dictSet st.awarded lid true
        progress_changed := true
        failed_attempts := dictSet st.failed_attempts lid 0 },
      Feedback.correctNew lesson.points)
  else if dictGet st.awarded lid false = true then
    ({ st with failed_attempts := dictSet st.failed_attempts lid 0 },
      Feedback.alreadyPassed)
  else
    ({ st with failed_attempts := dictSet st.failed_attempts lid 0 },
      Feedback.correctPlain)

/-- Embedding of `InteractiveLearningApp._handle_incorrect_answer` (lines 943-970). -/
def handle_incorrect_answer (lesson : Lesson) (lid : LessonID) (cppError : String)
    (st : ProgressState) : ProgressState × Feedback :=
  let fc := dictGet st.failed_attempts lid 0 + 1
  if MAX_FAILED_ATTEMPTS ≤ fc then
    ({ st with failed_attempts := dictSet st.failed_attempts lid 0 },
      Feedback.lockout (get_correct_answer_display_text lesson))
  else
    let remaining := MAX_FAILED_ATTEMPTS - fc
    let fb :=
      if lesson.type = LessonType.code_challenge ∧ cppError ≠ "" then
        Feedback.retryCode cppError remaining
      else
        Feedback.retryHint lesson.hint remaining
    ({ st with failed_attempts := dictSet st.failed_attempts lid fc }, fb)

/-- The verdict dispatch at the end of `check_answer` (lines 1052-1055). -/
def recordVerdict (lesson : Lesson) (lid : LessonID) (correct : Bool) (cppError : String)
    (st : ProgressState) : ProgressState × Feedback :=
  if correct then handle_correct_answer lesson lid st
  else handle_incorrect_answer lesson lid cppError st

/-- The per-lesson fail-count invariant: every recorded counter is strictly
below `MAX_FAILED_ATTEMPTS`. -/
def failInvariant (st : ProgressState) : Prop :=
  ∀ lid : LessonID, dictGet st.failed_attempts lid 0 < MAX_FAILED_ATTEMPTS

/-- The ordered `error_map` table of `_parse_compiler_errors` (lines 832-854),
in source order (Python dicts iterate in insertion order).  Each entry is
(regex pattern source, friendly explanation). -/
def errorMap : List (String × String) :=
  [ ("expected \x27;\x27 before",
      "哎呀，好像在某行的末尾忘记了分号 \x27;\x27 哦！C++中很多语句需要用它来结束。"),
    ("was not declared in this scope",
      "嗯，你用了一个变量或者函数，但是好像忘记先告诉电脑它是什么了（忘记声明了）。"),
    ("expected primary-expression before \x27.*\x27 token",
      "这里似乎有点小问题，电脑不太明白你想做什么。检查一下是不是有奇怪的符号或者漏了东西？"),
    ("stray \x27\\\\[0-9]*\x27 in program",
      "代码里好像有一些奇怪的、看不懂的符号，检查一下是不是不小心打错了？"),
    ("undefined reference to",
      "电脑找到了一个名字，但是找不到它具体代表什么（比如一个函数）。是不是忘记写这个函数了，或者链接的时候出错了？"),
    ("expected \x27\x7d\x27 at end of input",
      "代码的最后好像少了一个大括号 \x27\x7d\x27 来收尾哦。"),
    ("expected declaration before \x27\x7d\x27 token",
      "这个大括号 \x27\x7d\x27 前面是不是少了点什么代码呢？"),
    ("conflicting declaration \x27.*\x27",
      "这个名字好像之前用过了，但是这次用它的方式和之前不一样哦。"),
    ("redeclaration of \x27.*\x27",
      "这个名字你好像声明过两次了，检查一下是不是写多了？"),
    ("no match for \x27operator<<\x27",
      "使用 `cout << ...` 的时候，`<<` 右边的东西电脑不认识，看看是不是类型不对？"),
    ("no match for \x27operator>>\x27",
      "使用 `cin >> ...` 的时候，`>>` 右边的变量电脑不认识，看看是不是类型不对或者没声明？"),
    ("expected unqualified-id before numeric constant",
      "数字前面是不是不小心写了什么不该写的东西？"),
    ("expected \x27while\x27 before \x27(\x27",
      "for或者do-while循环是不是少了 `while` 关键字？"),
    ("expected expression before \x27)\x27 token",
      "括号 `()` 里面好像少了点东西，或者括号不匹配哦。"),
    ("expected \x27)\x27 before \x27;\x27 token",
      "是不是有一行代码的括号 `(` 没有对应的 `)` 就直接写分号了？"),
    ("else without a previous if",
      "`else` 是跟着 `if` 用的，这里好像没有找到前面的 `if` 呀。"),
    ("return-statement with no value, in function returning \x27int\x27",
      "这个函数应该返回一个整数，但是 `return;` 后面忘记写返回值了。"),
    ("note: expected \x27int\x27 but argument is of type",
      "函数需要的参数类型和你给的不一样哦，检查一下参数类型吧。"),
    ("too few arguments to function",
      "调用函数的时候，给的参数数量不够哦。"),
    ("too many arguments to function",
      "调用函数的时候，给的参数数量太多了哦。"),
    ("error: (ld returned 1 exit status|linker command failed)",
      "代码编译好了，但是在最后组合（链接）的时候出错了。通常是找不到 main 函数或者某些库函数。") ]

/-- Scanner for the first occurrence of the `re` pattern colon-digits-colon-
digits-colon in the raw stderr, returning the first digit group (the line
number), as in `re.search` at line 857. -/
def findLineMarkerAux : List Char → Option String
  | [] => none
  | c :: rest =>
    if c = ':' then
      match List.span Char.isDigit rest with
      | ([], _) => findLineMarkerAux rest
      | (ds, rest2) =>
        match rest2 with
        | ':' :: rest3 =>
          match List.span Char.isDigit rest3 with
          | ([], _) => findLineMarkerAux rest
          | (_, rest4) =>
            match rest4 with
            | ':' :: _ => some (String.mk ds)
            | _ => findLineMarkerAux rest
        | _ => findLineMarkerAux rest
    else findLineMarkerAux rest

/-- String-level wrapper of `findLineMarkerAux`. -/
def findLineMarker (s : String) : Option String :=
  findLineMarkerAux s.toList

/-- The message built for a matched pattern (lines 857-860): line-number
prefix when a marker is present, then the friendly text, then the first 300
characters of the raw stderr. -/
def matchedMessage (friendly : String) (stderrText : String) : String :=
  match findLineMarker stderrText with
  | some line =>
    "提示：在第 " ++ line ++ " 行附近，" ++ friendly ++ "\n\n原始错误片段：\n"
      ++ stderrText.take 300
  | none =>
    "提示：" ++ friendly ++ "\n\n原始错误片段：\n" ++ stderrText.take 300

/-- Embedding of `InteractiveLearningApp._parse_compiler_errors` (lines 831-862),
parameterised over `rmatch`, the embedding of `re.search(pattern, stderr,
re.IGNORECASE)`: the table is scanned in order, the first matching pattern
wins and the fallback returns the raw text behind a fixed header. -/
def parse_compiler_errors (rmatch : String → String → Bool)
    (table : List (String × String)) (stderrText : String) : String :=
  match table with
  | [] => "原始编译错误：\n" ++ stderrText
  | (pat, friendly) :: rest =>
    if rmatch pat stderrText then matchedMessage friendly stderrText
    else parse_compiler_errors rmatch rest stderrText

/-- Outcome of the compile phase of `execute_cpp_code`: normal exit code 0,
non-zero exit with captured stderr, `subprocess.TimeoutExpired`, or any other
exception raised from the `try` block. -/
inductive CompileOutcome
  | ok
  | err (stderrText : String)
  | timeout
  | exc (msg : String)
deriving Repr

/-- Outcome of the run phase: the binary ran to completion with captured
stdout/stderr (any exit code — the source never checks it), timed out, or an
unexpected exception was raised. -/
inductive RunOutcome
  | done (out errText : String)
  | timeout
  | exc (msg : String)
deriving Repr

/-- The result dict returned by `execute_cpp_code`. -/
structure SandboxResult where
  success : Bool
  output : String
  error : String
deriving Repr, DecidableEq

/-- Existence flags of the scoped temporary resources of one
`execute_cpp_code` call: the `mkdtemp` directory, `temp_code.cpp`, and the
compiled binary. -/
structure TempFiles where
  dirCreated : Bool
  cppFileExists : Bool
  exeFileExists : Bool
deriving Repr, DecidableEq

/-- The `finally` block of `execute_cpp_code` (lines 894-903): remove each of
the two files if it exists, then remove the directory if it is empty (it is,
since those two files are the only entries ever created in it). -/
def sandboxCleanup (t : TempFiles) : TempFiles :=
  let afterCpp : TempFiles := { t with cppFileExists := false }
  let afterExe : TempFiles := { afterCpp with exeFileExists := false }
  if afterExe.dirCreated && !afterExe.cppFileExists && !afterExe.exeFileExists then
    { afterExe with dirCreated := false }
  else
    afterExe

/-- Embedding of `InteractiveLearningApp.execute_cpp_code` (lines 864-903).  External
effects are parameters: `compilerOk` is the `g++ --version` preflight,
`writeOk` models whether writing the merged source raises, and the two phase
outcomes carry the captured streams.  The returned `TempFiles` is the state
of the call's temporary resources after the call completes. -/
def execute_cpp_code (rmatch : String → String → Bool) (compilerOk writeOk : Bool)
    (compileResult : CompileOutcome) (runResult : RunOutcome) :
    SandboxResult × TempFiles :=
  if !compilerOk then
    ({ success := false, output := ""
       error := "C++编译器 (g++) 未找到或无法执行。\n请确保已安装g++并将其添加到系统PATH中。" },
      { dirCreated := false, cppFileExists := false, exeFileExists := false })
  else
    let afterMk : TempFiles :=
      { dirCreated := true, cppFileExists := false, exeFileExists := false }
    let body : SandboxResult × TempFiles :=
      if !writeOk then
        ({ success := false, output := "", error := "执行时发生意外错误: 写入失败" },
          afterMk)
      else
        let afterWrite : TempFiles := { afterMk with cppFileExists := true }
        match compileResult with
        | CompileOutcome.timeout =>
          ({ success := false, output := ""
             error := "编译超时！代码可能进入了无限循环或运行时间过长。" }, afterWrite)
        | CompileOutcome.exc m =>
          ({ success := false, output := "", error := "执行时发生意外错误: " ++ m },
            afterWrite)
        | CompileOutcome.err stderrText =>
          ({ success := false, output := ""
             error := parse_compiler_errors rmatch errorMap stderrText }, afterWrite)
        | CompileOutcome.ok =>
          let afterCompile : TempFiles := { afterWrite with exeFileExists := true }
          match runResult with
          | RunOutcome.timeout =>
            ({ success := false, output := ""
               error := "执行超时！代码可能进入了无限循环或运行时间过长。" },
              afterCompile)
          | RunOutcome.exc m =>
            ({ success := false, output := "", error := "执行时发生意外错误: " ++ m },
              afterCompile)
          | RunOutcome.done out errText =>
            ({ success := true, output := out
               error := if errText ≠ "" then "\n运行时信息/错误:\n" ++ errText else "" },
              afterCompile)
    (body.1, sandboxCleanup body.2)

/-- A review-queue entry (`card_to_review` at lines 787-791): the current
course name, the current unit (topic) key, and the whole lesson record. -/
structure ReviewCard where
  course : String
  unit : String
  card_data : Lesson
deriving DecidableEq, Repr

/-- The guarded append of `_rate_flashcard` (lines 792-799): insert only if
no existing entry anywhere in the queue has the same (concept, definition)
pair — the comparison reads only `card_data`, never `course` or `unit`. -/
def addReviewCard (queue : List ReviewCard) (c : ReviewCard) : List ReviewCard :=
  if queue.any (fun e => e.card_data.concept == c.card_data.concept
      && e.card_data.definition == c.card_data.definition)
  then queue
  else queue ++ [c]

/-- Modelled from the spec: the dedup criterion as the claim words it,
scoped to entries "within the same course+unit".  Kept only to compare with
`addReviewCard`, whose source ignores course and unit. -/
def addReviewCardScoped (queue : List ReviewCard) (c : ReviewCard) : List ReviewCard :=
  if queue.any (fun e => e.course == c.course && e.unit == c.unit
      && e.card_data.concept == c.card_data.concept
      && e.card_data.definition == c.card_data.definition)
  then queue
  else queue ++ [c]

/-- The flashcard-relevant mutable fields of the app. -/
structure FlashcardState where
  awarded : List (LessonID × Bool)
  review_cards : List ReviewCard
  progress_changed : Bool
deriving Repr

/-- Embedding of `InteractiveLearningApp._rate_flashcard` (lines 775-808): mark the lesson
awarded unconditionally, append a review card (dedup-guarded) only on a
do-not-know rating, and flag unsaved progress. -/
def rate_flashcard (course topicKey : String) (idx : Nat) (lesson : Lesson)
    (knew_it : Bool) (st : FlashcardState) : FlashcardState :=
  let st1 := { st with awarded := dictSet st.awarded (topicKey, idx) true }
  if knew_it then
    { st1 with progress_changed := true }
  else
    { st1 with
        review_cards := addReviewCard st1.review_cards
          { course := course, unit := topicKey, card_data := lesson }
        progress_changed := true }

/-- How `load_lesson` presents a flashcard (lines 749-751): when its points
are already awarded the answer is revealed with the already-learned feedback
and no rating buttons; otherwise the interactive show-answer flow runs. -/
inductive FlashcardView
  | alreadyLearned
  | interactive
deriving DecidableEq, Repr

/-- The flashcard branch of `load_lesson`, keyed on `points_already_awarded`. -/
def flashcardDisplay (points_already_awarded : Bool) : FlashcardView :=
  if points_already_awarded then FlashcardView.alreadyLearned
  else FlashcardView.interactive

/-- Python `list.remove(c)`: remove the first element equal to `c`;
`none` models the `ValueError` raised when no element is equal. -/
def pyListRemove (l : List ReviewCard) (c : ReviewCard) : Option (List ReviewCard) :=
  match l with
  | [] => none
  | x :: xs => if x = c then some xs else (pyListRemove xs c).map (fun r => x :: r)

/-- State of one `ReviewWindow` session. -/
structure ReviewSession where
  appCards : List ReviewCard
  sessionCards : List ReviewCard
  currentIndex : Nat
deriving Repr

/-- Embedding of `ReviewWindow.rate_card` (lines 1279-1293): a remembered card is removed
from the app's review list via `list.remove` and popped from the session
list; otherwise the session just advances.  `none` models an uncaught
exception (out-of-range index or `ValueError` from `remove`). -/
def rate_card (s : ReviewSession) (remembered : Bool) : Option ReviewSession :=
  match s.sessionCards.get? s.currentIndex with
  | none => none
  | some card =>
    if remembered then
      (pyListRemove s.appCards card).map (fun appCards' =>
        { s with
            appCards := appCards'
            sessionCards := s.sessionCards.eraseIdx s.currentIndex })
    else
      some { s with currentIndex := s.currentIndex + 1 }

/-- Fixture: a flashcard lesson with concept c and definition d. -/
def flashLesson1 : Lesson :=
  { type := LessonType.flashcard, points := 0, answer := "", options := [],
    answer_index := 0, expected_output := "", hint := "", concept := "c",
    definition := "d" }

/-- Fixture: the review card for `flashLesson1` in course A, unit U1. -/
def cardA : ReviewCard := { course := "A", unit := "U1", card_data := flashLesson1 }

/-- Fixture: a review card with the same (concept, definition) pair but a
different course and unit. -/
def cardB : ReviewCard := { course := "B", unit := "U2", card_data := flashLesson1 }

/-- Keys of an association list, in order. -/
def keysOf {ν : Type} (d : List (String × ν)) : List String :=
  d.map Prod.fst

/-- The score-restoration loop of `load_progress` (lines 530-533): iterate
the loaded mapping and assign a value only when its unit key is already
present (i.e. the unit exists in the currently loaded course). -/
def restoreScores (scores loaded : List (String × Int)) : List (String × Int) :=
  loaded.foldl
    (fun acc p => if acc.any (fun q => q.1 == p.1) then dictSet acc p.1 p.2 else acc)
    scores

/-- The score part of `load_progress` (lines 511-536): reset every unit of
the current course to 0, restore saved entries whose unit exists in the
current course, then recompute the total as the sum of the unit scores. -/
def load_progress_scores (topics : List String) (loaded : List (String × Int)) :
    List (String × Int) × Int :=
  let scores := restoreScores (topics.map fun t => (t, 0)) loaded
  (scores, sumValues scores)

/-- The apostrophe character Python uses to quote plain strings in `repr`. -/
def quoteChar : Char := '\x27'

/-- The ten decimal digit characters. -/
def digitChar : Nat → Char
  | 0 => '0'
  | 1 => '1'
  | 2 => '2'
  | 3 => '3'
  | 4 => '4'
  | 5 => '5'
  | 6 => '6'
  | 7 => '7'
  | 8 => '8'
  | _ => '9'

/-- Decimal digit characters of `n`, most significant first — the characters
Python `str` produces for a nonnegative int. -/
def natDecimal (n : Nat) : List Char :=
  if n = 0 then ['0'] else ((Nat.digits 10 n).map digitChar).reverse

/-- Numeric value of a digit character. -/
def digitVal (c : Char) : Nat := c.toNat - 48

/-- Value of a most-significant-first digit string. -/
def decVal (cs : List Char) : Nat := cs.foldl (fun a c => a * 10 + digitVal c) 0

/-- Python `str((unit, index))` on a lesson identity (line 484): the tuple
literal with the unit name single-quoted.  Unit names without quote or
backslash characters repr to exactly this shape. -/
def pyStrOfKey (k : LessonID) : String :=
  String.mk ('(' :: quoteChar ::
    (k.1.data ++ quoteChar :: ',' :: ' ' :: (natDecimal k.2 ++ [')'])))

/-- Python `eval` at line 535, modelled on its actual input domain: the
tuple-literal strings the save path writes.  `none` models an eval error. -/
def pyEvalKey (s : String) : Option LessonID :=
  match s.data with
  | c0 :: c1 :: rest =>
    if c0 = '(' ∧ c1 = quoteChar then
      let sp := List.span (fun d => d != quoteChar) rest
      match sp.2 with
      | q :: c2 :: c3 :: rest2 =>
        if q = quoteChar ∧ c2 = ',' ∧ c3 = ' ' then
          let sp2 := List.span Char.isDigit rest2
          if sp2.2 = [')'] ∧ ¬ sp2.1.isEmpty then some (String.mk sp.1, decVal sp2.1)
          else none
        else none
      | _ => none
    else none
  | _ => none

/-- Modelled from the spec: a language-specific (Python) tuple literal — the
`(\x27...\x27, n)` shape `str` gives a (str, int) tuple.  Used only to
compare the source's key encoding against the claim's wording. -/
def isPythonTupleLiteral (s : String) : Bool :=
  (s.data.take 2 == ['(', quoteChar]) && (s.data.getLast? == some ')')

/-- The progress snapshot `save_progress` writes (lines 482-485): per-unit
scores, and the awarded map with every tuple key serialized through `str`. -/
structure ProgressFile where
  scores : List (String × Int)
  lesson_points_awarded : List (String × Bool)
deriving Repr

/-- The snapshot construction of `save_progress` (lines 482-485). -/
def save_progress_data (scores : List (String × Int))
    (awarded : List (LessonID × Bool)) : ProgressFile :=
  { scores := scores
    lesson_points_awarded := awarded.map (fun p => (pyStrOfKey p.1, p.2)) }

/-- The awarded-map part of `load_progress` (line 535): each serialized key
is re-parsed with `eval`; the first eval failure aborts the comprehension. -/
def load_awarded : List (String × Bool) → Option (List (LessonID × Bool))
  | [] => some []
  | p :: rest =>
    match pyEvalKey p.1, load_awarded rest with
    | some k, some ks => some ((k, p.2) :: ks)
    | _, _ => none

/-- Embedding of `load_progress` applied to a stored snapshot (lines 511-536): scores
reset to the current course's units then selectively restored, total
recomputed, awarded keys re-parsed with `eval`. -/
def load_progress_file (topics : List String) (file : ProgressFile) :
    Option (List (String × Int) × Int × List (LessonID × Bool)) :=
  (load_awarded file.lesson_points_awarded).map (fun aw =>
    let scores := restoreScores (topics.map fun t => (t, 0)) file.scores
    (scores, sumValues scores, aw))

/-- Outcome of the overwrite check in `save_progress`: whether the conflict
dialog was shown, and whether the snapshot was written. -/
structure SaveCheckResult where
  prompted : Bool
  written : Bool
deriving DecidableEq, Repr

/-- The regression conflicts of `save_progress` (lines 467-473): entries of
the existing snapshot whose stored score exceeds the score about to be
written for that unit. -/
def conflictList (existing current : List (String × Int)) : List (String × Int) :=
  existing.filter (fun p => dictGet current p.1 0 < p.2)

/-- The overwrite-check control flow of `save_progress` (lines 449-500).
`force` is `force_save` (passed as True by `select_course` and `on_closing`),
`fileExists`/`fileParses` describe the prior snapshot, and `userConfirms` is
the answer to the conflict dialog.  A parse failure is swallowed
(`except: pass`) and the write proceeds. -/
def save_progress_check (force fileExists fileParses : Bool)
    (existing current : List (String × Int)) (userConfirms : Bool) : SaveCheckResult :=
  if !force && fileExists then
    if fileParses then
      if !(conflictList existing current).isEmpty then
        if userConfirms then { prompted := true, written := true }
        else { prompted := true, written := false }
      else { prompted := false, written := true }
    else { prompted := false, written := true }
  else { prompted := false, written := true }

/-- Fixture: a 10-point fill-blank lesson used by witnesses. -/
def lesson0 : Lesson :=
  { type := LessonType.fill_blank, points := 10, answer := "42", options := [],
    answer_index := 0, expected_output := "", hint := "想一想", concept := "", definition := "" }

/-- Fixture: fresh progress state for one unit named U. -/
def st0 : ProgressState :=
  { scores := [("U", 0)], total_score := 0, awarded := [], failed_attempts := [],
    progress_changed := false }

/-- Fixture: progress state with four recorded failures on lesson (U, 0). -/
def st4 : ProgressState :=
  { scores := [("U", 0)], total_score := 0, awarded := [],
    failed_attempts := [(("U", 0), 4)], progress_changed := false }


/-- Fixture: a two-unit score map. -/
def scoresW : List (String × Int) := [("U1", 5), ("U2", 0)]

/-- Fixture: one awarded lesson identity. -/
def awardedW : List (LessonID × Bool) := [(("U1", 0), true)]

theorem dictGet_dictSet_self {κ ν : Type} [DecidableEq κ]
    (d : List (κ × ν)) (k : κ) (v : ν) (dflt : ν) :
    dictGet (dictSet d k v) k dflt = v := by
  induction d with
  | nil => simp [dictGet, dictSet]
  | cons p rest ih =>
    obtain ⟨k', v'⟩ := p
    by_cases h : k' = k
    · simp [dictGet, dictSet, h]
    · simp [dictGet, dictSet, h, ih]

theorem dictGet_dictSet_ne {κ ν : Type} [DecidableEq κ]
    (d : List (κ × ν)) (k k' : κ) (v : ν) (dflt : ν) (hne : k' ≠ k) :
    dictGet (dictSet d k v) k' dflt = dictGet d k' dflt := by
  induction d with
  | nil =>
    simp only [dictGet, dictSet]
    rw [if_neg (Ne.symm hne)]
  | cons p rest ih =>
    obtain ⟨k₀, v₀⟩ := p
    by_cases h : k₀ = k
    · subst h
      simp [dictGet, dictSet, Ne.symm hne]
    · simp [dictGet, dictSet, h, ih]

theorem handle_correct_answer_failed_attempts (lesson : Lesson) (lid : LessonID)
    (st : ProgressState) :
    (handle_correct_answer lesson lid st).1.failed_attempts
      = dictSet st.failed_attempts lid 0 := by
  unfold handle_correct_answer
  split
  · rfl
  · split <;> rfl

theorem handle_incorrect_answer_failed_attempts (lesson : Lesson) (lid : LessonID)
    (cppError : String) (st : ProgressState) :
    (handle_incorrect_answer lesson lid cppError st).1.failed_attempts
      = if MAX_FAILED_ATTEMPTS ≤ dictGet st.failed_attempts lid 0 + 1 then
          dictSet st.failed_attempts lid 0
        else
          dictSet st.failed_attempts lid (dictGet st.failed_attempts lid 0 + 1) := by
  unfold handle_incorrect_answer
  by_cases h : MAX_FAILED_ATTEMPTS ≤ dictGet st.failed_attempts lid 0 + 1
  · simp only [if_pos h]
  · simp only [if_neg h]

theorem parse_compiler_errors_first_match (rmatch : String → String → Bool)
    (s : String) :
    ∀ (t1 : List (String × String)) (pat friendly : String) (t2 : List (String × String)),
      (∀ q ∈ t1, rmatch q.1 s = false) → rmatch pat s = true →
      parse_compiler_errors rmatch (t1 ++ (pat, friendly) :: t2) s
        = matchedMessage friendly s := by
  intro t1
  induction t1 with
  | nil =>
    intro pat friendly t2 _ hm
    simp [parse_compiler_errors, hm]
  | cons q rest ih =>
    intro pat friendly t2 hnone hm
    obtain ⟨qp, qf⟩ := q
    have hq : rmatch qp s = false := hnone (qp, qf) (List.mem_cons_self _ _)
    simp only [List.cons_append, parse_compiler_errors, hq, Bool.false_eq_true,
      if_false]
    exact ih pat friendly t2 (fun r hr => hnone r (List.mem_cons_of_mem _ hr)) hm

theorem parse_compiler_errors_fallback (rmatch : String → String → Bool)
    (s : String) :
    ∀ table : List (String × String),
      (∀ q ∈ table, rmatch q.1 s = false) →
      parse_compiler_errors rmatch table s = "原始编译错误：\n" ++ s := by
  intro table
  induction table with
  | nil => intro _; rfl
  | cons q rest ih =>
    intro hnone
    obtain ⟨qp, qf⟩ := q
    have hq : rmatch qp s = false := hnone (qp, qf) (List.mem_cons_self _ _)
    simp only [parse_compiler_errors, hq, Bool.false_eq_true, if_false]
    exact ih (fun r hr => hnone r (List.mem_cons_of_mem _ hr))

/-- Claim C5: for every raw stderr text, the classifier scans the ordered table
`errorMap` top-to-bottom and the first matching pattern determines the result
(table order encodes priority); when a `:line:col:` marker is present the
friendly message is prefixed with a line reference; and when no pattern
matches the result is the raw text verbatim behind a fixed header — an
explicit total fallback, never an error. -/
theorem classifier_first_match_priority_and_fallback
    (rmatch : String → String → Bool) (s : String) :
    (∀ (t1 : List (String × String)) (pat friendly : String)
        (t2 : List (String × String)),
      errorMap = t1 ++ (pat, friendly) :: t2 →
      (∀ q ∈ t1, rmatch q.1 s = false) → rmatch pat s = true →
      parse_compiler_errors rmatch errorMap s = matchedMessage friendly s) ∧
    ((∀ q ∈ errorMap, rmatch q.1 s = false) →
      parse_compiler_errors rmatch errorMap s = "原始编译错误：\n" ++ s) ∧
    (∀ friendly line, findLineMarker s = some line →
      matchedMessage friendly s
        = "提示：在第 " ++ line ++ " 行附近，" ++ friendly ++ "\n\n原始错误片段：\n"
          ++ s.take 300) ∧
    (∀ friendly, findLineMarker s = none →
      matchedMessage friendly s
        = "提示：" ++ friendly ++ "\n\n原始错误片段：\n" ++ s.take 300) := by
  refine ⟨?_, ?_, ?_, ?_⟩
  · intro t1 pat friendly t2 htab hnone hm
    rw [htab]
    exact parse_compiler_errors_first_match rmatch s t1 pat friendly t2 hnone hm
  · exact parse_compiler_errors_fallback rmatch s errorMap
  · intro friendly line h
    simp [matchedMessage, h]
  · intro friendly h
    simp [matchedMessage, h]

/-- Witness for `classifier_first_match_priority_and_fallback`: the
missing-semicolon pattern (first table entry) wins on a marker-carrying
stderr, the marker yields line 3, and an unmatched stderr falls back to the
raw text behind the fixed header. -/
theorem classifier_first_match_priority_and_fallback_witness :
    parse_compiler_errors (fun p _ => p == "expected \x27;\x27 before") errorMap
        "prog.cpp:3:5: error: expected \x27;\x27 before \x27return\x27"
      = matchedMessage
          "哎呀，好像在某行的末尾忘记了分号 \x27;\x27 哦！C++中很多语句需要用它来结束。"
          "prog.cpp:3:5: error: expected \x27;\x27 before \x27return\x27" ∧
    findLineMarker "prog.cpp:3:5: error: expected \x27;\x27 before \x27return\x27"
      = some "3" ∧
    parse_compiler_errors (fun _ _ => false) errorMap "mystery stderr"
      = "原始编译错误：\nmystery stderr" := by
  refine ⟨?_, by decide, ?_⟩
  · exact (classifier_first_match_priority_and_fallback
        (fun p _ => p == "expected \x27;\x27 before")
        "prog.cpp:3:5: error: expected \x27;\x27 before \x27return\x27").1
      [] "expected \x27;\x27 before"
      "哎呀，好像在某行的末尾忘记了分号 \x27;\x27 哦！C++中很多语句需要用它来结束。"
      errorMap.tail rfl (by simp) (by decide)
  · exact (classifier_first_match_priority_and_fallback
        (fun _ _ => false) "mystery stderr").2.1 (fun q _ => rfl)

/-- Claim C6: every `execute_cpp_code` call releases the temporary directory and
every file placed in it on every exit path — success, compile failure, run
failure, timeout at either phase, and unexpected exception — so after the
call no temporary resources of that call remain; the cleanup runs in a
`finally` block an exception cannot skip. -/
theorem sandbox_cleanup_on_every_path (rmatch : String → String → Bool)
    (compilerOk writeOk : Bool) (compileResult : CompileOutcome)
    (runResult : RunOutcome) :
    (execute_cpp_code rmatch compilerOk writeOk compileResult runResult).2
      = { dirCreated := false, cppFileExists := false, exeFileExists := false } := by
  unfold execute_cpp_code
  cases compilerOk with
  | false => rfl
  | true =>
    cases writeOk with
    | false => rfl
    | true =>
      cases compileResult with
      | ok => cases runResult <;> rfl
      | err stderrText => rfl
      | timeout => rfl
      | exc m => rfl

/-- Claim C1: for a lesson with positive points whose LessonID is not yet awarded,
the first correct verdict adds the points to the unit score, marks the lesson
awarded and reports the gained points; any correct verdict on an
already-awarded LessonID returns the already-passed feedback and leaves the
unit-score map and the total score unchanged (idempotence of re-submitting a
correct answer after award). -/
theorem correct_answer_awards_once (st : ProgressState) (lesson : Lesson) (lid : LessonID)
    (hnot : dictGet st.awarded lid false = false) (hpts : 0 < lesson.points) :
    dictGet (handle_correct_answer lesson lid st).1.awarded lid false = true ∧
    dictGet (handle_correct_answer lesson lid st).1.scores lid.1 0
      = dictGet st.scores lid.1 0 + lesson.points ∧
    (handle_correct_answer lesson lid st).2 = Feedback.correctNew lesson.points ∧
    ∀ st' : ProgressState, dictGet st'.awarded lid false = true →
      (handle_correct_answer lesson lid st').1.scores = st'.scores ∧
      (handle_correct_answer lesson lid st').1.total_score = st'.total_score ∧
      (handle_correct_answer lesson lid st').2 = Feedback.alreadyPassed := by
  refine ⟨?_, ?_, ?_, ?_⟩
  · simp [handle_correct_answer, hnot, hpts, dictGet_dictSet_self]
  · simp [handle_correct_answer, hnot, hpts, dictGet_dictSet_self]
  · simp [handle_correct_answer, hnot, hpts]
  · intro st' hst'
    refine ⟨?_, ?_, ?_⟩ <;> simp [handle_correct_answer, hst']

/-- Witness for `correct_answer_awards_once` at a concrete lesson and state:
the first correct verdict awards 10 points, the second returns
already-passed. -/
theorem correct_answer_awards_once_witness :
    dictGet (handle_correct_answer lesson0 ("U", 0) st0).1.awarded ("U", 0) false = true ∧
    dictGet (handle_correct_answer lesson0 ("U", 0) st0).1.scores ("U", 0).1 0
      = dictGet st0.scores ("U", 0).1 0 + lesson0.points ∧
    (handle_correct_answer lesson0 ("U", 0)
        (handle_correct_answer lesson0 ("U", 0) st0).1).2 = Feedback.alreadyPassed := by
  have h := correct_answer_awards_once st0 lesson0 ("U", 0) (by decide) (by decide)
  exact ⟨h.1, h.2.1, (h.2.2.2 _ h.1).2.2⟩

/-- Claim C2: recording verdicts preserves the invariant that every fail counter
lies in `[0, MAX_FAILED_ATTEMPTS)`; the call in which an incorrect verdict
reaches the threshold emits the lockout feedback carrying the canonical
correct-answer text and resets the counter to 0 before returning; otherwise
the call emits a retry feedback with `MAX_FAILED_ATTEMPTS - failCount`
remaining attempts (post-increment count) and stores the incremented
counter. -/
theorem fail_count_invariant_and_lockout (st : ProgressState) (lesson : Lesson)
    (lid : LessonID) (cppError : String) (v : Bool) (hinv : failInvariant st) :
    failInvariant (recordVerdict lesson lid v cppError st).1 ∧
    (MAX_FAILED_ATTEMPTS ≤ dictGet st.failed_attempts lid 0 + 1 →
      (handle_incorrect_answer lesson lid cppError st).2
        = Feedback.lockout (get_correct_answer_display_text lesson) ∧
      dictGet (handle_incorrect_answer lesson lid cppError st).1.failed_attempts lid 0
        = 0) ∧
    (dictGet st.failed_attempts lid 0 + 1 < MAX_FAILED_ATTEMPTS →
      (handle_incorrect_answer lesson lid cppError st).2
        = (if lesson.type = LessonType.code_challenge ∧ cppError ≠ "" then
            Feedback.retryCode cppError
              (MAX_FAILED_ATTEMPTS - (dictGet st.failed_attempts lid 0 + 1))
          else
            Feedback.retryHint lesson.hint
              (MAX_FAILED_ATTEMPTS - (dictGet st.failed_attempts lid 0 + 1))) ∧
      dictGet (handle_incorrect_answer lesson lid cppError st).1.failed_attempts lid 0
        = dictGet st.failed_attempts lid 0 + 1) := by
  refine ⟨?_, ?_, ?_⟩
  · intro lid'
    cases v with
    | true =>
      show dictGet (handle_correct_answer lesson lid st).1.failed_attempts lid' 0
        < MAX_FAILED_ATTEMPTS
      rw [handle_correct_answer_failed_attempts]
      by_cases hl : lid' = lid
      · subst hl
        rw [dictGet_dictSet_self]
        decide
      · rw [dictGet_dictSet_ne _ _ _ _ _ hl]
        exact hinv lid'
    | false =>
      show dictGet (handle_incorrect_answer lesson lid cppError st).1.failed_attempts lid' 0
        < MAX_FAILED_ATTEMPTS
      rw [handle_incorrect_answer_failed_attempts]
      by_cases hth : MAX_FAILED_ATTEMPTS ≤ dictGet st.failed_attempts lid 0 + 1
      · rw [if_pos hth]
        by_cases hl : lid' = lid
        · subst hl
          rw [dictGet_dictSet_self]
          decide
        · rw [dictGet_dictSet_ne _ _ _ _ _ hl]
          exact hinv lid'
      · rw [if_neg hth]
        by_cases hl : lid' = lid
        · subst hl
          rw [dictGet_dictSet_self]
          exact Nat.lt_of_not_le hth
        · rw [dictGet_dictSet_ne _ _ _ _ _ hl]
          exact hinv lid'
  · intro h
    constructor
    · unfold handle_incorrect_answer
      simp only [if_pos h]
    · rw [handle_incorrect_answer_failed_attempts, if_pos h, dictGet_dictSet_self]
  · intro h
    have hn : ¬ MAX_FAILED_ATTEMPTS ≤ dictGet st.failed_attempts lid 0 + 1 :=
      Nat.not_le.mpr h
    constructor
    · unfold handle_incorrect_answer
      simp only [if_neg hn]
    · rw [handle_incorrect_answer_failed_attempts, if_neg hn, dictGet_dictSet_self]

/-- Witness for `fail_count_invariant_and_lockout`: the fifth consecutive
failure on lesson (U, 0) emits the lockout feedback and resets the counter. -/
theorem fail_count_invariant_and_lockout_witness :
    dictGet (recordVerdict lesson0 ("U", 0) false "" st4).1.failed_attempts ("U", 0) 0
      < MAX_FAILED_ATTEMPTS ∧
    (handle_incorrect_answer lesson0 ("U", 0) "" st4).2
      = Feedback.lockout (get_correct_answer_display_text lesson0) ∧
    dictGet (handle_incorrect_answer lesson0 ("U", 0) "" st4).1.failed_attempts
      ("U", 0) 0 = 0 := by
  have hinv : failInvariant st4 := by
    intro lid
    simp only [st4, dictGet, MAX_FAILED_ATTEMPTS]
    split <;> omega
  have h := fail_count_invariant_and_lockout st4 lesson0 ("U", 0) "" false hinv
  exact ⟨h.1 ("U", 0), (h.2.1 (by decide)).1, (h.2.1 (by decide)).2⟩

/-- Claim C7 counterexample: a card whose (concept, definition) pair matches an
entry from a different course and unit is NOT inserted by the source's add,
although the claim's same-course+unit dedup criterion would insert it. -/
theorem review_dedup_scope_counterexample :
    addReviewCard [cardA] cardB = [cardA] ∧
    addReviewCardScoped [cardA] cardB = [cardA, cardB] := by
  constructor <;> rfl

/-- Claim C7 amended: the review-queue add deduplicates by the (concept,
definition) pair globally across the whole queue — course and unit never
enter the comparison (case-sensitive exact match) — and consequently adding
two structurally identical cards leaves the queue length unchanged after the
second add. -/
theorem review_dedup_global (queue : List ReviewCard) (c : ReviewCard) :
    (addReviewCard queue c = queue ↔
      ∃ e ∈ queue, e.card_data.concept = c.card_data.concept ∧
        e.card_data.definition = c.card_data.definition) ∧
    (addReviewCard (addReviewCard queue c) c).length
      = (addReviewCard queue c).length := by
  have hpred : ∀ e : ReviewCard,
      (e.card_data.concept == c.card_data.concept
        && e.card_data.definition == c.card_data.definition) = true ↔
      (e.card_data.concept = c.card_data.concept ∧
        e.card_data.definition = c.card_data.definition) := by
    intro e
    simp
  by_cases hP : (queue.any fun e => e.card_data.concept == c.card_data.concept
      && e.card_data.definition == c.card_data.definition) = true
  · refine ⟨⟨fun _ => ?_, fun _ => ?_⟩, ?_⟩
    · obtain ⟨e, he, hp⟩ := List.any_eq_true.mp hP
      exact ⟨e, he, (hpred e).mp hp⟩
    · unfold addReviewCard
      rw [if_pos hP]
    · unfold addReviewCard
      rw [if_pos hP, if_pos hP]
  · have hne : addReviewCard queue c = queue ++ [c] := by
      unfold addReviewCard
      rw [if_neg hP]
    refine ⟨⟨fun h => ?_, fun hex => ?_⟩, ?_⟩
    · rw [hne] at h
      have hlen := congrArg List.length h
      simp at hlen
    · obtain ⟨e, he, h1, h2⟩ := hex
      exact absurd (List.any_eq_true.mpr ⟨e, he, (hpred e).mpr ⟨h1, h2⟩⟩) hP
    · rw [hne]
      have hself : ((queue ++ [c]).any fun e =>
          e.card_data.concept == c.card_data.concept
            && e.card_data.definition == c.card_data.definition) = true :=
        List.any_eq_true.mpr ⟨c, by simp, (hpred c).mpr ⟨rfl, rfl⟩⟩
      unfold addReviewCard
      rw [if_pos hself]

/-- Claim C8 counterexample: removing a card that is not present in the queue is
not a no-op — Python `list.remove` raises ValueError, modelled as `none`. -/
theorem remove_missing_card_counterexample :
    pyListRemove [] cardA = none := rfl

/-- Claim C8 amended: removing a card removes the first structurally-equal match
when one is present; removing a card that is not present raises ValueError
(modelled as `none`) rather than being a no-op. -/
theorem remove_first_match_or_error (l : List ReviewCard) (c : ReviewCard) :
    pyListRemove l c = if c ∈ l then some (l.erase c) else none := by
  induction l with
  | nil => simp [pyListRemove]
  | cons x xs ih =>
    by_cases hx : x = c
    · subst hx
      simp [pyListRemove]
    · by_cases hm : c ∈ xs
      · simp [pyListRemove, hx, ih, hm, List.mem_cons,
          List.erase_cons_tail, Ne.symm hx]
      · have hm' : c ∉ x :: xs := by
          simp [hm, Ne.symm hx]
        simp [pyListRemove, hx, ih, hm, hm']

/-- Claim C9: rating a flashcard marks the lesson awarded whether the rating was
know or do-not-know, so reloading the lesson shows it as already learned and
it cannot be rated again in the session; only the do-not-know rating
additionally appends a (dedup-guarded) card to the review queue. -/
theorem rate_flashcard_awards_both_ratings (course topicKey : String) (idx : Nat)
    (lesson : Lesson) (knew_it : Bool) (st : FlashcardState) :
    dictGet (rate_flashcard course topicKey idx lesson knew_it st).awarded
        (topicKey, idx) false = true ∧
    (rate_flashcard course topicKey idx lesson knew_it st).review_cards
      = (if knew_it then st.review_cards
         else addReviewCard st.review_cards
            { course := course, unit := topicKey, card_data := lesson }) ∧
    flashcardDisplay
        (dictGet (rate_flashcard course topicKey idx lesson knew_it st).awarded
          (topicKey, idx) false)
      = FlashcardView.alreadyLearned := by
  cases knew_it <;>
    refine ⟨?_, ?_, ?_⟩ <;>
      simp [rate_flashcard, flashcardDisplay, dictGet_dictSet_self]

/-- Claim C4 counterexample: with `force_save=True` — the path `select_course` and
`on_closing` take — a save whose scores regress a stored snapshot is written
with no conflict prompt: a silent regression of saved progress. -/
theorem forced_save_silently_regresses :
    conflictList [("U", 5)] [("U", 3)] = [("U", 5)] ∧
    save_progress_check true true true [("U", 5)] [("U", 3)] false
      = { prompted := false, written := true } := by
  constructor <;> rfl

/-- Claim C4 amended: the regression check guards only non-forced saves over an
existing, parseable snapshot: there the conflict dialog appears exactly when
some stored unit score exceeds the about-to-be-written one, and a conflicted
save is written only on explicit confirmation; the forced save path writes
unconditionally without the check. -/
theorem save_conflict_check_nonforced (existing current : List (String × Int))
    (userConfirms : Bool) :
    (save_progress_check false true true existing current userConfirms).prompted
      = !(conflictList existing current).isEmpty ∧
    (save_progress_check false true true existing current userConfirms).written
      = ((conflictList existing current).isEmpty || userConfirms) ∧
    save_progress_check true true true existing current userConfirms
      = { prompted := false, written := true } := by
  have hnf : save_progress_check false true true existing current userConfirms
      = if !(conflictList existing current).isEmpty then
          (if userConfirms then { prompted := true, written := true }
           else { prompted := true, written := false })
        else ({ prompted := false, written := true } : SaveCheckResult) := rfl
  rw [hnf]
  cases hc : (conflictList existing current).isEmpty <;> cases userConfirms <;>
    exact ⟨rfl, rfl, rfl⟩

theorem any_key_eq {ν : Type} (d : List (String × ν)) (t : String) :
    (d.any fun q => q.1 == t) = true ↔ t ∈ keysOf d := by
  rw [List.any_eq_true]
  constructor
  · rintro ⟨q, hq, hbeq⟩
    exact List.mem_map.mpr ⟨q, hq, by simpa using hbeq⟩
  · intro h
    obtain ⟨q, hq, hfq⟩ := List.mem_map.mp h
    exact ⟨q, hq, by simpa using hfq⟩

theorem keysOf_dictSet_of_mem (d : List (String × Int)) (k : String) (v : Int)
    (h : k ∈ keysOf d) : keysOf (dictSet d k v) = keysOf d := by
  induction d with
  | nil => simp [keysOf] at h
  | cons p rest ih =>
    obtain ⟨a, b⟩ := p
    by_cases ha : a = k
    · subst ha
      simp [dictSet, keysOf]
    · have h' : k ∈ keysOf rest := by
        have hm : k ∈ a :: keysOf rest := h
        rcases List.mem_cons.mp hm with h₁ | h₂
        · exact absurd h₁ (Ne.symm ha)
        · exact h₂
      have hd : dictSet ((a, b) :: rest) k v = (a, b) :: dictSet rest k v := by
        simp [dictSet, ha]
      rw [hd]
      show a :: keysOf (dictSet rest k v) = a :: keysOf rest
      rw [ih h']

theorem restoreScores_cons (scores : List (String × Int)) (p : String × Int)
    (rest : List (String × Int)) :
    restoreScores scores (p :: rest)
      = restoreScores
          (if scores.any (fun q => q.1 == p.1) then dictSet scores p.1 p.2 else scores)
          rest := rfl

theorem keysOf_restoreScores (loaded : List (String × Int)) :
    ∀ scores : List (String × Int),
      keysOf (restoreScores scores loaded) = keysOf scores := by
  induction loaded with
  | nil => intro scores; rfl
  | cons p rest ih =>
    intro scores
    rw [restoreScores_cons, ih]
    by_cases hc : (scores.any fun q => q.1 == p.1) = true
    · rw [if_pos hc, keysOf_dictSet_of_mem _ _ _ ((any_key_eq _ _).mp hc)]
    · rw [if_neg hc]

theorem dictGet_cons_ne (a : String) (b : Int) (rest : List (String × Int))
    (t : String) (h : a ≠ t) :
    dictGet ((a, b) :: rest) t 0 = dictGet rest t 0 := by
  simp [dictGet, h]

theorem dictGet_restoreScores (loaded : List (String × Int))
    (hnd : (keysOf loaded).Nodup) :
    ∀ (acc : List (String × Int)) (t : String),
      dictGet (restoreScores acc loaded) t 0
        = if t ∈ keysOf loaded ∧ t ∈ keysOf acc then dictGet loaded t 0
          else dictGet acc t 0 := by
  induction loaded with
  | nil =>
    intro acc t
    simp [restoreScores, keysOf, dictGet]
  | cons p rest ih =>
    obtain ⟨tp, vp⟩ := p
    have hcons : tp ∉ keysOf rest ∧ (keysOf rest).Nodup :=
      List.nodup_cons.mp (show (tp :: keysOf rest).Nodup from hnd)
    intro acc t
    rw [restoreScores_cons, ih hcons.2]
    by_cases hma : (acc.any fun q => q.1 == tp) = true
    · rw [if_pos hma]
      have htpacc : tp ∈ keysOf acc := (any_key_eq _ _).mp hma
      have hkeys : keysOf (dictSet acc tp vp) = keysOf acc :=
        keysOf_dictSet_of_mem _ _ _ htpacc
      by_cases ht : t = tp
      · subst ht
        have hnr : ¬ (t ∈ keysOf rest ∧ t ∈ keysOf (dictSet acc t vp)) := by
          rintro ⟨hmem, _⟩
          exact hcons.1 hmem
        have hmc : t ∈ keysOf ((t, vp) :: rest) := List.mem_cons_self _ _
        rw [if_neg hnr, if_pos ⟨hmc, htpacc⟩, dictGet_dictSet_self]
        simp [dictGet]
      · have hmemiff : t ∈ keysOf ((tp, vp) :: rest) ↔ t ∈ keysOf rest := by
          simp [keysOf, ht]
        rw [dictGet_dictSet_ne _ _ _ _ _ ht, dictGet_cons_ne _ _ _ _ (Ne.symm ht), hkeys]
        by_cases hc : t ∈ keysOf rest ∧ t ∈ keysOf acc
        · rw [if_pos hc, if_pos ⟨hmemiff.mpr hc.1, hc.2⟩]
        · rw [if_neg hc, if_neg (fun hx => hc ⟨hmemiff.mp hx.1, hx.2⟩)]
    · rw [if_neg hma]
      have htpacc : tp ∉ keysOf acc := fun hmem => hma ((any_key_eq _ _).mpr hmem)
      by_cases ht : t = tp
      · subst ht
        rw [if_neg (fun hx => htpacc hx.2), if_neg (fun hx => htpacc hx.2)]
      · have hmemiff : t ∈ keysOf ((tp, vp) :: rest) ↔ t ∈ keysOf rest := by
          simp [keysOf, ht]
        rw [dictGet_cons_ne _ _ _ _ (Ne.symm ht)]
        by_cases hc : t ∈ keysOf rest ∧ t ∈ keysOf acc
        · rw [if_pos hc, if_pos ⟨hmemiff.mpr hc.1, hc.2⟩]
        · rw [if_neg hc, if_neg (fun hx => hc ⟨hmemiff.mp hx.1, hx.2⟩)]

theorem keysOf_map_pair (topics : List String) :
    keysOf (topics.map fun t => (t, (0 : Int))) = topics := by
  induction topics with
  | nil => rfl
  | cons x xs ih =>
    show x :: keysOf (xs.map fun t => (t, (0 : Int))) = x :: xs
    rw [ih]

theorem dictGet_map_zero (topics : List String) (t : String) :
    dictGet (topics.map fun s => (s, (0 : Int))) t 0 = 0 := by
  induction topics with
  | nil => rfl
  | cons x xs ih =>
    by_cases hx : x = t <;> simp [dictGet, hx, ih]

/-- Claim C10: loading saved progress resets every unit score of the currently
loaded course to 0, restores a saved unit score only when that unit exists in
the current course's lesson data (saved scores for foreign unit names are
silently discarded), and the total score afterwards equals the sum of the
restored per-unit scores. -/
theorem load_resets_restores_and_sums (topics : List String)
    (loaded : List (String × Int)) (hnd : (keysOf loaded).Nodup) :
    keysOf (load_progress_scores topics loaded).1 = topics ∧
    (∀ t : String, dictGet (load_progress_scores topics loaded).1 t 0
      = if t ∈ keysOf loaded ∧ t ∈ topics then dictGet loaded t 0 else 0) ∧
    (load_progress_scores topics loaded).2
      = sumValues (load_progress_scores topics loaded).1 := by
  refine ⟨?_, ?_, rfl⟩
  · show keysOf (restoreScores (topics.map fun t => (t, 0)) loaded) = topics
    rw [keysOf_restoreScores, keysOf_map_pair]
  · intro t
    show dictGet (restoreScores (topics.map fun t => (t, 0)) loaded) t 0 = _
    rw [dictGet_restoreScores loaded hnd, keysOf_map_pair]
    by_cases hc : t ∈ keysOf loaded ∧ t ∈ topics
    · rw [if_pos hc, if_pos hc]
    · rw [if_neg hc, if_neg hc, dictGet_map_zero]

/-- Witness for `load_resets_restores_and_sums`: loading a snapshot carrying
a score for a unit not in the current course restores the known unit's score
and silently discards the foreign one. -/
theorem load_resets_restores_and_sums_witness :
    keysOf (load_progress_scores ["U1", "U2"] [("U1", 7), ("Foreign", 9)]).1
      = ["U1", "U2"] ∧
    dictGet (load_progress_scores ["U1", "U2"] [("U1", 7), ("Foreign", 9)]).1 "U1" 0
      = 7 ∧
    dictGet (load_progress_scores ["U1", "U2"] [("U1", 7), ("Foreign", 9)]).1
      "Foreign" 0 = 0 := by
  have h := load_resets_restores_and_sums ["U1", "U2"] [("U1", 7), ("Foreign", 9)]
    (by decide)
  refine ⟨h.1, ?_, ?_⟩
  · rw [h.2.1 "U1"]
    decide
  · rw [h.2.1 "Foreign"]
    decide

theorem digitVal_digitChar (d : Nat) (hd : d < 10) : digitVal (digitChar d) = d := by
  interval_cases d <;> rfl

theorem isDigit_digitChar (d : Nat) (hd : d < 10) : (digitChar d).isDigit = true := by
  interval_cases d <;> rfl

theorem decVal_fold (L : List Nat) :
    ∀ a : Nat, (∀ d ∈ L, d < 10) →
      ((L.map digitChar).reverse).foldl (fun x c => x * 10 + digitVal c) a
        = a * 10 ^ L.length + Nat.ofDigits 10 L := by
  induction L with
  | nil =>
    intro a _
    simp [Nat.ofDigits]
  | cons d L ih =>
    intro a hlt
    have hd : d < 10 := hlt d (List.mem_cons_self _ _)
    have hrest : ∀ x ∈ L, x < 10 := fun x hx => hlt x (List.mem_cons_of_mem _ hx)
    rw [List.map_cons, List.reverse_cons, List.foldl_append, ih a hrest]
    simp only [List.foldl_cons, List.foldl_nil, digitVal_digitChar d hd,
      Nat.ofDigits_cons, List.length_cons, pow_succ]
    ring

theorem decVal_natDecimal (n : Nat) : decVal (natDecimal n) = n := by
  by_cases h : n = 0
  · subst h
    rfl
  · rw [natDecimal, if_neg h]
    have hlt : ∀ d ∈ Nat.digits 10 n, d < 10 := fun d hd =>
      Nat.digits_lt_base (by norm_num) hd
    rw [decVal, decVal_fold (Nat.digits 10 n) 0 hlt]
    simp [Nat.ofDigits_digits]

theorem natDecimal_isDigit (n : Nat) : ∀ c ∈ natDecimal n, c.isDigit = true := by
  intro c hc
  by_cases h : n = 0
  · subst h
    simp [natDecimal] at hc
    subst hc
    rfl
  · rw [natDecimal, if_neg h, List.mem_reverse] at hc
    obtain ⟨d, hd, hcd⟩ := List.mem_map.mp hc
    subst hcd
    exact isDigit_digitChar d (Nat.digits_lt_base (by norm_num) hd)

theorem natDecimal_ne_nil (n : Nat) : natDecimal n ≠ [] := by
  by_cases h : n = 0
  · subst h
    simp [natDecimal]
  · rw [natDecimal, if_neg h]
    simp [Nat.digits_ne_nil_iff_ne_zero, h]

theorem takeWhile_prefix_stop {p : Char → Bool} (l1 : List Char) (q : Char)
    (t : List Char) (h1 : ∀ a ∈ l1, p a = true) (hq : p q = false) :
    (l1 ++ q :: t).takeWhile p = l1 := by
  induction l1 with
  | nil => simp [List.takeWhile_cons, hq]
  | cons x xs ih =>
    have hx : p x = true := h1 x (List.mem_cons_self _ _)
    simp [List.takeWhile_cons, hx,
      ih (fun a ha => h1 a (List.mem_cons_of_mem _ ha))]

theorem dropWhile_prefix_stop {p : Char → Bool} (l1 : List Char) (q : Char)
    (t : List Char) (h1 : ∀ a ∈ l1, p a = true) (hq : p q = false) :
    (l1 ++ q :: t).dropWhile p = q :: t := by
  induction l1 with
  | nil => simp [List.dropWhile_cons, hq]
  | cons x xs ih =>
    have hx : p x = true := h1 x (List.mem_cons_self _ _)
    simp [List.dropWhile_cons, hx,
      ih (fun a ha => h1 a (List.mem_cons_of_mem _ ha))]

theorem span_prefix_stop {p : Char → Bool} (l1 : List Char) (q : Char)
    (t : List Char) (h1 : ∀ a ∈ l1, p a = true) (hq : p q = false) :
    List.span p (l1 ++ q :: t) = (l1, q :: t) := by
  rw [List.span_eq_take_drop, takeWhile_prefix_stop l1 q t h1 hq,
    dropWhile_prefix_stop l1 q t h1 hq]

theorem pyEvalKey_pyStrOfKey (k : LessonID)
    (hq : ∀ c ∈ k.1.data, c ≠ quoteChar) :
    pyEvalKey (pyStrOfKey k) = some k := by
  obtain ⟨u, n⟩ := k
  have h1 : ∀ a ∈ u.data, (a != quoteChar) = true := by
    intro a ha
    simpa using hq a ha
  have hstop : (quoteChar != quoteChar) = false := by simp
  have hrpar : Char.isDigit ')' = false := rfl
  have htake1 : List.takeWhile (fun d => d != quoteChar)
      (u.data ++ quoteChar :: ',' :: ' ' :: (natDecimal n ++ [')'])) = u.data :=
    takeWhile_prefix_stop _ _ _ h1 hstop
  have hdrop1 : List.dropWhile (fun d => d != quoteChar)
      (u.data ++ quoteChar :: ',' :: ' ' :: (natDecimal n ++ [')']))
      = quoteChar :: ',' :: ' ' :: (natDecimal n ++ [')']) :=
    dropWhile_prefix_stop _ _ _ h1 hstop
  have htake2 : List.takeWhile Char.isDigit (natDecimal n ++ [')']) = natDecimal n :=
    takeWhile_prefix_stop _ _ _ (natDecimal_isDigit n) hrpar
  have hdrop2 : List.dropWhile Char.isDigit (natDecimal n ++ [')']) = [')'] :=
    dropWhile_prefix_stop _ _ _ (natDecimal_isDigit n) hrpar
  have hnil := natDecimal_ne_nil n
  have hne : ¬ ((natDecimal n).isEmpty = true) := by
    simpa [List.isEmpty_iff] using hnil
  show pyEvalKey (String.mk ('(' :: quoteChar ::
      (u.data ++ quoteChar :: ',' :: ' ' :: (natDecimal n ++ [')'])))) = some (u, n)
  simp [pyEvalKey, htake1, hdrop1, htake2, hdrop2, hne, hnil, decVal_natDecimal]

theorem dictSet_append_not_mem (pre l : List (String × Int)) (k : String) (v : Int)
    (h : k ∉ keysOf pre) :
    dictSet (pre ++ l) k v = pre ++ dictSet l k v := by
  induction pre with
  | nil => rfl
  | cons p rest ih =>
    obtain ⟨a, b⟩ := p
    have ha : a ≠ k := fun hak => h (by rw [hak]; exact List.mem_cons_self _ _)
    have h' : k ∉ keysOf rest := fun hm => h (List.mem_cons_of_mem _ hm)
    simp [dictSet, ha, ih h']

theorem restoreScores_self_aux (scores : List (String × Int)) :
    ∀ pre : List (String × Int),
      (keysOf (pre ++ scores)).Nodup →
      restoreScores (pre ++ scores.map fun p => (p.1, 0)) scores = pre ++ scores := by
  induction scores with
  | nil =>
    intro pre _
    simp [restoreScores]
  | cons p rest ih =>
    obtain ⟨t, v⟩ := p
    intro pre hnd
    have hkeys : keysOf (pre ++ (t, v) :: rest) = keysOf pre ++ t :: keysOf rest := by
      simp [keysOf]
    have hmid := List.nodup_middle.mp (hkeys ▸ hnd)
    have hcons := List.nodup_cons.mp hmid
    have htpre : t ∉ keysOf pre := fun hm => hcons.1 (List.mem_append.mpr (Or.inl hm))
    rw [restoreScores_cons]
    have hmem : t ∈ keysOf (pre ++ (t, 0) :: rest.map fun p => (p.1, (0 : Int))) := by
      rw [keysOf, List.map_append]
      exact List.mem_append.mpr (Or.inr (List.mem_cons_self _ _))
    have hany : ((pre ++ (t, 0) :: rest.map fun p => (p.1, (0 : Int))).any
        fun q => q.1 == t) = true := (any_key_eq _ _).mpr hmem
    simp only [List.map_cons, hany, if_pos]
    rw [dictSet_append_not_mem _ _ _ _ htpre]
    have hset : dictSet ((t, (0 : Int)) :: rest.map fun p => (p.1, (0 : Int))) t v
        = (t, v) :: rest.map fun p => (p.1, (0 : Int)) := by
      simp [dictSet]
    rw [hset]
    have hres : pre ++ (t, v) :: (rest.map fun p => (p.1, (0 : Int)))
        = (pre ++ [(t, v)]) ++ rest.map fun p => (p.1, (0 : Int)) := by
      simp
    rw [hres]
    have hnd' : (keysOf ((pre ++ [(t, v)]) ++ rest)).Nodup := by
      have heq : (pre ++ [(t, v)]) ++ rest = pre ++ (t, v) :: rest := by
        simp
      rw [heq]
      exact hnd
    rw [ih (pre ++ [(t, v)]) hnd']
    simp

theorem restoreScores_self (scores : List (String × Int))
    (hnd : (keysOf scores).Nodup) :
    restoreScores (scores.map fun p => (p.1, 0)) scores = scores := by
  have h := restoreScores_self_aux scores [] (by simpa using hnd)
  simpa using h

theorem load_awarded_round (awarded : List (LessonID × Bool))
    (hq : ∀ p ∈ awarded, ∀ c ∈ p.1.1.data, c ≠ quoteChar) :
    load_awarded (awarded.map fun p => (pyStrOfKey p.1, p.2)) = some awarded := by
  induction awarded with
  | nil => rfl
  | cons p rest ih =>
    obtain ⟨k, b⟩ := p
    have hk := pyEvalKey_pyStrOfKey k (hq (k, b) (List.mem_cons_self _ _))
    have hrest := ih (fun q hqm => hq q (List.mem_cons_of_mem _ hqm))
    rw [List.map_cons]
    simp [load_awarded, hk, hrest]

/-- Claim C3 counterexample: the saved lesson identity for unit A, lesson 0 is the
Python tuple literal `str((\x27A\x27, 0))` — decoded on load by the generic
`eval` — not a language-neutral composite key, contradicting the claim's
"rather than a language-specific tuple literal". -/
theorem key_serialization_is_tuple_literal :
    pyStrOfKey ("A", 0) = "(\x27A\x27, 0)" ∧
    isPythonTupleLiteral (pyStrOfKey ("A", 0)) = true := by
  constructor <;> decide

/-- Claim C3 amended: saving then loading restores the unit-score map, the
recomputed total, and the awarded map structurally equal to the originals
(for score maps keyed exactly by the course's units without repetition and
awarded keys with quote-free unit names); the lesson identity, however, is
serialized as the Python `str()` of the (unit, index) tuple — a
language-specific tuple literal reparsed with `eval` — not a purpose-built
composite key. -/
theorem save_load_round_trip (scores : List (String × Int))
    (awarded : List (LessonID × Bool))
    (hnd : (keysOf scores).Nodup)
    (hq : ∀ p ∈ awarded, ∀ c ∈ p.1.1.data, c ≠ quoteChar) :
    load_progress_file (keysOf scores) (save_progress_data scores awarded)
      = some (scores, sumValues scores, awarded) := by
  unfold load_progress_file save_progress_data
  rw [load_awarded_round awarded hq]
  have hmap : (keysOf scores).map (fun t => (t, (0 : Int)))
      = scores.map fun p => (p.1, 0) := by
    simp [keysOf, List.map_map, Function.comp]
  simp only [Option.map_some']
  rw [hmap, restoreScores_self scores hnd]

/-- Witness for `save_load_round_trip` at a concrete course state. -/
theorem save_load_round_trip_witness :
    load_progress_file (keysOf scoresW) (save_progress_data scoresW awardedW)
      = some (scoresW, sumValues scoresW, awardedW) :=
  save_load_round_trip scoresW awardedW (by decide) (by decide)

end KidsLearn
